import Mathlib

/-!
Verification development for the `squid-gsheets-store` package: a typed
schema layer (`src/types.ts`, `src/table.ts`) and a checkpointed append
protocol (`src/database.ts`) over the Google Sheets API.

The embedding is shallow: JavaScript runtime values are modelled by the
inductive `JSValue`, the spreadsheet cell primitives (`string | number |
boolean`) by `Primitive`, asynchronous Google Sheets API calls by the pure
request descriptions in `ServiceCall`, and each method of the source by a
pure Lean function over explicit state.  JS numbers are modelled by `Rat`
(exceptional NaN results get the dedicated constructor `Primitive.nan`).
-/

set_option autoImplicit false

namespace GSheetsStore

/-- A JavaScript runtime value, restricted to the shapes that can reach the
serialization layer of this package: strings, numbers, bigints, booleans,
`Date` objects (carrying their millisecond timestamp), `null` and
`undefined`. -/
inductive JSValue where
  | str (s : String)
  | num (n : ℚ)
  | bigint (i : ℤ)
  | boolean (b : Bool)
  | date (ms : ℤ)
  | nullV
  | undefinedV
  deriving DecidableEq, Repr

/-- The `Primitive` type of `src/table.ts`: `string | number | boolean`.
`nan` models the JS number NaN, which arithmetic on a non-numeric input can
produce. -/
inductive Primitive where
  | str (s : String)
  | num (n : ℚ)
  | boolean (b : Bool)
  | nan
  deriving DecidableEq, Repr

/-- JS `value == null` (loose equality): true exactly for `null` and
`undefined`. -/
def isNullish : JSValue → Bool
  | .nullV => true
  | .undefinedV => true
  | _ => false

/-- JS `ToNumber` on a string, as used by the division in
`DateTime().serialize` when handed a string.  The whitespace-only string
converts to 0 and integer literals to their value; other strings are
simplified to NaN (`none`) — fractional and exponent literals are elided,
and no theorem in this development evaluates that case. -/
def jsStringToNumber (s : String) : Option ℚ :=
  let t := s.trim
  if t = "" then some 0
  else (t.toInt?).map (fun n => (n : ℚ))

/-- `String()` of `src/types.ts`: `assert(typeof value === 'string')`, then
return the value unchanged. -/
def stringSerialize : JSValue → Except String Primitive
  | .str s => .ok (.str s)
  | _ => .error "assert failed: typeof value === 'string'"

/-- `Numeric()` of `src/types.ts`: a bigint is converted with `toString()`,
a number is returned unchanged, any other shape hits `throw new Error()`. -/
def numericSerialize : JSValue → Except String Primitive
  | .bigint i => .ok (.str (toString i))
  | .num n => .ok (.num n)
  | _ => .error "Error"

/-- `Boolean()` of `src/types.ts`: `assert(typeof value === 'boolean',
'Invalid boolean')`, then return the value unchanged. -/
def booleanSerialize : JSValue → Except String Primitive
  | .boolean b => .ok (.boolean b)
  | _ => .error "Invalid boolean"

/-- `DateTime()` of `src/types.ts`: `(value.valueOf() / 86400000) + 25569`
with no runtime shape check.  On a `Date` the millisecond timestamp is
converted; on a number, boolean or string, `valueOf()` returns the value
itself and JS division coerces it with `ToNumber` (NaN for non-numeric
strings); on `null`/`undefined` the property access `value.valueOf` throws
a `TypeError`, and mixing a bigint into `/` throws a `TypeError`. -/
def dateTimeSerialize : JSValue → Except String Primitive
  | .date ms => .ok (.num ((ms : ℚ) / 86400000 + 25569))
  | .num n => .ok (.num (n / 86400000 + 25569))
  | .boolean b => .ok (.num ((if b then (1 : ℚ) else 0) / 86400000 + 25569))
  | .str s =>
    match jsStringToNumber s with
    | some n => .ok (.num (n / 86400000 + 25569))
    | none => .ok .nan
  | .bigint _ => .error "TypeError: Cannot mix BigInt and other types, use explicit conversions"
  | .nullV => .error "TypeError: Cannot read properties of null"
  | .undefinedV => .error "TypeError: Cannot read properties of undefined"

/-- The four built-in `Type<T>` values exported by `src/types.ts`.  Each
carries a `formatType` hint and a `serialize` function. -/
inductive TypeDef where
  | stringT
  | numericT
  | dateTimeT
  | booleanT
  deriving DecidableEq, Repr

/-- The `formatType` field of each built-in type. -/
def TypeDef.formatType : TypeDef → String
  | .stringT => "TEXT"
  | .numericT => "TEXT"
  | .dateTimeT => "DATE_TIME"
  | .booleanT => "TEXT"

/-- The `serialize` method of each built-in type. -/
def TypeDef.serialize : TypeDef → JSValue → Except String Primitive
  | .stringT => stringSerialize
  | .numericT => numericSerialize
  | .dateTimeT => dateTimeSerialize
  | .booleanT => booleanSerialize

/-- `ColumnData` of `src/table.ts`: a type together with the resolved
`{nullable}` option (the `Column` builder defaults `nullable` to false). -/
structure ColumnData where
  type : TypeDef
  nullable : Bool
  deriving DecidableEq, Repr

/-- `Column` of `src/table.ts`: a name paired with its `ColumnData`. -/
structure Column where
  name : String
  data : ColumnData
  deriving DecidableEq, Repr

/-- The `Column(type, options?)` builder of `src/table.ts`:
`{type, options: {nullable: false, ...options}}`. -/
def mkColumnData (type : TypeDef) (nullable : Option Bool) : ColumnData :=
  { type := type, nullable := nullable.getD false }

/-- A `Table` of `src/table.ts` after construction: the constructor walks
the schema object in property order and materialises the ordered column
list, which fixes both serialization order and remote layout. -/
structure TableDef where
  name : String
  columns : List Column
  deriving DecidableEq, Repr

/-- A record passed to `insert`: a JS object, modelled as an association
list from property name to value.  A property absent from the list reads as
`undefined`, as in JS. -/
abbrev RecordV := List (String × JSValue)

/-- `record[column.name]`: the first binding for the name, or `undefined`
when the property is absent. -/
def recordGet (r : RecordV) (name : String) : JSValue :=
  match r.find? (fun p => p.1 == name) with
  | some p => p.2
  | none => .undefinedV

/-- One flushed row: one cell per column, `none` for a JS `null`. -/
abbrev Row := List (Option Primitive)

/-- The per-column body of `TableWriter.flush` for one record:
`value == null ? null : column.data.type.serialize(value)`, walking the
column list in declared order.  A `serialize` throw propagates. -/
def flushRow : List Column → RecordV → Except String Row
  | [], _ => .ok []
  | c :: cs, r =>
    let value := recordGet r c.name
    if isNullish value then
      match flushRow cs r with
      | .error e => .error e
      | .ok rest => .ok (none :: rest)
    else
      match c.data.type.serialize value with
      | .error e => .error e
      | .ok p =>
        match flushRow cs r with
        | .error e => .error e
        | .ok rest => .ok (some p :: rest)

/-- `TableWriter.flush`: one row per buffered record, in insertion order. -/
def flush (cs : List Column) : List RecordV → Except String (List Row)
  | [] => .ok []
  | r :: rs =>
    match flushRow cs r with
    | .error e => .error e
    | .ok row =>
      match flush cs rs with
      | .error e => .error e
      | .ok rest => .ok (row :: rest)

/-- `TableWriter.insert`: push one record onto the buffer. -/
def writerInsert (records : List RecordV) (r : RecordV) : List RecordV :=
  records ++ [r]

/-- `TableWriter.insertMany`: push a batch of records onto the buffer. -/
def writerInsertMany (records : List RecordV) (rs : List RecordV) : List RecordV :=
  records ++ rs

/-! ### The Google Sheets API surface used by `src/database.ts` -/

/-- One `Schema$ValueRange` entry of a `values.batchUpdate` request body. -/
structure ValueRange where
  range : String
  values : List Row
  deriving DecidableEq, Repr

/-- One request inside a structural `spreadsheets.batchUpdate` call:
either `addSheet` (with optional explicit `sheetId` and grid size) or the
`updateCells` header write of `migrate`, whose row carries, per column, the
entered string value and the number-format type. -/
inductive StructuralRequest where
  | addSheet (sheetId : Option ℕ) (title : String) (rowCount columnCount : ℕ)
  | updateCells (sheetId : ℕ) (startRow endRow startCol endCol : ℕ)
      (header : List (String × String))
  deriving DecidableEq, Repr

/-- A Google Sheets API call issued by the database, as a pure request
description. -/
inductive ServiceCall where
  | getSpreadsheet (spreadsheetId : String)
  | structuralBatchUpdate (spreadsheetId : String) (requests : List StructuralRequest)
  | valuesGet (spreadsheetId : String) (range : String)
  | valuesUpdate (spreadsheetId : String) (range : String) (values : List Row)
  | valuesBatchUpdate (spreadsheetId : String) (data : List ValueRange)
  | valuesAppend (spreadsheetId : String) (range : String) (values : List Row)
  deriving DecidableEq, Repr

/-! ### `Database.getNextRowIndex` (row reservation) -/

/-- The spreadsheet id hard-coded in the `values.append` call of
`Database.getNextRowIndex` (`src/database.ts`, line 208). -/
def hardcodedAppendSpreadsheetId : String :=
  "1g6aHhV7-EsB6SRmM9KIQq9y_Mm4ZVfMw_5aK79NvDXg"

/-- The request issued by `Database.getNextRowIndex(sheet)`: append one
blank row (`values: [['']]`) to the range naming the sheet.  The method has
the database's configured `this.spreadsheetId` in scope (first parameter
here) but does not use it: the call carries the hard-coded literal
spreadsheet id instead. -/
def getNextRowIndexCall (_configuredSpreadsheetId : String) (sheet : String) : ServiceCall :=
  .valuesAppend hardcodedAppendSpreadsheetId
    ("\x27" ++ sheet ++ "\x27") [[some (.str "")]]

/-- The row-reservation step of `Database.transact`: one
`getNextRowIndex` append per declared table, over the aliases in
declaration order. -/
def transactReserveCalls (sid : String) (tables : List TableDef) : List ServiceCall :=
  tables.map (fun t => getNextRowIndexCall sid t.name)

/-! ### `Database.transact` (commit payload and control flow) -/

/-- The R1C1 target range `transact` builds for one table:
`'name'!R{rowIndex+1}C1:C{columnCount}`, starting at the reserved row. -/
def tableWriteRange (name : String) (rowIndex : ℕ) (columnCount : ℕ) : String :=
  "\x27" ++ name ++ "\x27!R" ++ toString (rowIndex + 1) ++ "C1:C" ++ toString columnCount

/-- The final `ValueRange` of every commit: write `[[to]]` to the
checkpoint cell `squid_status!R1C1`. -/
def checkpointValueRange (toHeight : ℤ) : ValueRange :=
  { range := "squid_status!R1C1", values := [[some (.num (toHeight : ℚ))]] }

/-- The per-table `ValueRange` list of `transact`: the loop zips, per
alias, the declared table, its buffered records and its reserved row index,
and pushes one entry whose range starts at the reserved row and whose
values are the writer's `flush()` output.  A `flush` throw propagates. -/
def tableRequests : List (TableDef × List RecordV × ℕ) → Except String (List ValueRange)
  | [] => .ok []
  | (t, buf, idx) :: rest =>
    match flush t.columns buf with
    | .error e => .error e
    | .ok vals =>
      match tableRequests rest with
      | .error e => .error e
      | .ok tail =>
        .ok ({ range := tableWriteRange t.name idx t.columns.length, values := vals } :: tail)

/-- The whole `data` payload of the single `values.batchUpdate` commit
call: the per-table writes followed by the checkpoint write. -/
def transactBatchData (ents : List (TableDef × List RecordV × ℕ)) (toHeight : ℤ) :
    Except String (List ValueRange) :=
  match tableRequests ents with
  | .error e => .error e
  | .ok reqs => .ok (reqs ++ [checkpointValueRange toHeight])

/-- The commit step issues exactly one service call: the atomic
multi-range `values.batchUpdate` carrying the whole payload. -/
def transactWriteCalls (sid : String) (reqs : List ValueRange) : List ServiceCall :=
  [.valuesBatchUpdate sid reqs]

/-- The observable outcome of one `Database.transact` call: the error it
rethrew (if any), the in-memory `lastCommitted` after the call, and the
transaction-scoped `open` flag the `Store` closure reads. -/
structure TransactResult where
  thrown : Option String
  lastCommitted : ℤ
  storeOpen : Bool
  deriving DecidableEq, Repr

/-- The control flow of `Database.transact(from, to, cb)` after entering
the `try` block, with the outcome of each remote step made explicit: the
callback result, the `Promise.all` of row reservations (which on success
yields each table zipped with its buffer and reserved index), and the final
`values.batchUpdate`.  Building the payload runs `flush` and can itself
throw.  The `catch` block sets `open = false` and rethrows without touching
`lastCommitted`; on success `lastCommitted = to` and then `open = false`. -/
def transactRun (last toHeight : ℤ) (cbResult : Option String)
    (reserveResult : Except String (List (TableDef × List RecordV × ℕ)))
    (writeResult : Option String) : TransactResult :=
  match cbResult with
  | some e => ⟨some e, last, false⟩
  | none =>
    match reserveResult with
    | .error e => ⟨some e, last, false⟩
    | .ok ents =>
      match transactBatchData ents toHeight with
      | .error e => ⟨some e, last, false⟩
      | .ok _ =>
        match writeResult with
        | some e => ⟨some e, last, false⟩
        | none => ⟨none, toHeight, false⟩

/-! ### The `Store` facade -/

/-- The chunk of one transaction: one buffered record list per table
alias. -/
abbrev ChunkState := List (String × List RecordV)

/-- The closure handed to the `Store` constructor:
`assert(open, 'Transaction was already closed'); return chunk`. -/
def chunkAccess (openFlag : Bool) (chunk : ChunkState) : Except String ChunkState :=
  if openFlag then .ok chunk else .error "Transaction was already closed"

/-- Append a record to one alias's buffer inside the chunk. -/
def chunkInsert (chunk : ChunkState) (a : String) (r : RecordV) : ChunkState :=
  chunk.map (fun p => if p.1 == a then (p.1, writerInsert p.2 r) else p)

/-- A `store.<table>.insert(record)` attempt: every table property of the
store first runs the chunk closure (which checks the `open` flag), then
pushes into the writer.  The second component lists the service calls the
operation issues — buffering is pure, so it is empty on both paths. -/
def storeInsertRun (openFlag : Bool) (chunk : ChunkState) (a : String) (r : RecordV) :
    Except String ChunkState × List ServiceCall :=
  match chunkAccess openFlag chunk with
  | .error e => (.error e, [])
  | .ok c => (.ok (chunkInsert c a r), [])

/-! ### `Database.advance` and `Database.close` -/

/-- `Database.advance(height)`: returns early when `lastCommitted ==
height`; otherwise issues one `values.update` of `[[height]]` to the
checkpoint cell.  The result is the in-memory `lastCommitted` after the
call (the method never assigns it) and the calls issued. -/
def advanceRun (sid : String) (last height : ℤ) : ℤ × List ServiceCall :=
  if last = height then (last, [])
  else (last, [.valuesUpdate sid "squid_status!R1C1" [[some (.num (height : ℚ))]]])

/-- `Database.close()`: resets the in-memory `lastCommitted` to -1. -/
def closeRun (_last : ℤ) : ℤ :=
  -1

/-! ### `Database.connect` and `Database.migrate` -/

/-- The remote spreadsheet as far as this layer observes it: the sheet
list (title and grid size) and the content of the checkpoint cell
`squid_status!R1C1` (`none` when empty; the store only ever writes integers
there). -/
structure SheetInfo where
  title : String
  rowCount : ℕ
  columnCount : ℕ
  deriving DecidableEq, Repr

/-- See `SheetInfo`. -/
structure RemoteState where
  sheets : List SheetInfo
  statusCell : Option ℤ
  deriving DecidableEq, Repr

/-- `spreadsheet.sheets.find(s => s.properties.title === title)` is a hit. -/
def hasSheet (st : RemoteState) (title : String) : Bool :=
  st.sheets.any (fun s => s.title == title)

/-- The two structural requests `migrate` emits per missing table: an
`addSheet` with the md5-derived sheet id (the hash is modelled by the
`sheetIdOf` parameter), one row and one column per declared column, and the
header `updateCells` carrying each column's name and format hint. -/
def migrateRequestsFor (sheetIdOf : String → ℕ) (t : TableDef) : List StructuralRequest :=
  [.addSheet (some (sheetIdOf t.name)) t.name 1 t.columns.length,
   .updateCells (sheetIdOf t.name) 0 1 0 t.columns.length
     (t.columns.map (fun c => (c.name, c.data.type.formatType)))]

/-- `Database.migrate`: fetch the spreadsheet, keep the declared tables
with no sheet of the same title, and when any exist, create them all (sheet
plus header row) in one structural `batchUpdate`. -/
def migrateRun (sid : String) (sheetIdOf : String → ℕ) (tables : List TableDef)
    (st : RemoteState) : RemoteState × List ServiceCall :=
  let newTables := tables.filter (fun t => !(st.sheets.any (fun s => s.title == t.name)))
  if newTables.isEmpty then
    (st, [.getSpreadsheet sid])
  else
    ({ st with
        sheets := st.sheets ++ newTables.map (fun t => ⟨t.name, 1, t.columns.length⟩) },
     [.getSpreadsheet sid,
      .structuralBatchUpdate sid (newTables.map (migrateRequestsFor sheetIdOf)).flatten])

/-- The outcome of `Database.connect`: the remote state afterwards, the
value of `lastCommitted` the call returns, and the calls issued. -/
structure ConnectResult where
  state : RemoteState
  checkpoint : ℤ
  calls : List ServiceCall
  deriving Repr

/-- The remote effect of the `addSheet` request `connect` issues when the
checkpoint sheet is missing: the 1×1 `squid_status` sheet exists afterwards
and its single cell starts out empty. -/
def withStatusSheet (st : RemoteState) : RemoteState :=
  { st with sheets := st.sheets ++ [⟨"squid_status", 1, 1⟩], statusCell := none }

/-- `Database.connect()`: fetch the spreadsheet; when no `squid_status`
sheet exists, create it 1×1 (its cell starts empty) and set
`lastCommitted = -1`; otherwise read the checkpoint cell, an empty cell
defaulting to -1 (`Number(data.values?.[0]?.[0] ?? -1)`).  Then run
`migrate` and return `lastCommitted`. -/
def connectRun (sid : String) (sheetIdOf : String → ℕ) (tables : List TableDef)
    (st : RemoteState) : ConnectResult :=
  if hasSheet st "squid_status" then
    let last : ℤ :=
      match st.statusCell with
      | some n => n
      | none => -1
    let m := migrateRun sid sheetIdOf tables st
    ⟨m.1, last, [.getSpreadsheet sid, .valuesGet sid "squid_status!R1C1"] ++ m.2⟩
  else
    let m := migrateRun sid sheetIdOf tables (withStatusSheet st)
    ⟨m.1, -1,
     [.getSpreadsheet sid,
      .structuralBatchUpdate sid [.addSheet none "squid_status" 1 1]] ++ m.2⟩

/-- How many `addSheet` requests inside one call would create a sheet
titled `squid_status`. -/
def structStatusAdds : StructuralRequest → ℕ
  | .addSheet _ title _ _ => if title = "squid_status" then 1 else 0
  | _ => 0

/-- See `structStatusAdds`. -/
def callStatusAdds : ServiceCall → ℕ
  | .structuralBatchUpdate _ reqs => (reqs.map structStatusAdds).sum
  | _ => 0

/-- The number of `squid_status` sheet creations across a call list. -/
def countStatusAdds (calls : List ServiceCall) : ℕ :=
  (calls.map callStatusAdds).sum

/-! ### Helper lemmas about `flushRow` and `flush` -/

theorem flushRow_length (cs : List Column) (r : RecordV) :
    ∀ rows, flushRow cs r = .ok rows → rows.length = cs.length := by
  induction cs with
  | nil =>
    intro rows h
    simp only [flushRow] at h
    cases h
    rfl
  | cons c cs ih =>
    intro rows h
    simp only [flushRow] at h
    split at h
    · cases hrec : flushRow cs r with
      | error e => rw [hrec] at h; cases h
      | ok rest =>
        rw [hrec] at h
        cases h
        simp [ih rest hrec]
    · cases hser : (c.data.type.serialize (recordGet r c.name)) with
      | error e => rw [hser] at h; cases h
      | ok p =>
        rw [hser] at h
        cases hrec : flushRow cs r with
        | error e => rw [hrec] at h; cases h
        | ok rest =>
          rw [hrec] at h
          cases h
          simp [ih rest hrec]

theorem flushRow_cell (cs : List Column) (r : RecordV) :
    ∀ rows, flushRow cs r = .ok rows →
      ∀ j (hj : j < cs.length) (hj' : j < rows.length),
        (isNullish (recordGet r (cs.get ⟨j, hj⟩).name) = true ∧
          rows.get ⟨j, hj'⟩ = none) ∨
        (∃ p, isNullish (recordGet r (cs.get ⟨j, hj⟩).name) = false ∧
          (cs.get ⟨j, hj⟩).data.type.serialize (recordGet r (cs.get ⟨j, hj⟩).name) = .ok p ∧
          rows.get ⟨j, hj'⟩ = some p) := by
  induction cs with
  | nil =>
    intro rows _ j hj
    exact absurd hj (by simp)
  | cons c cs ih =>
    intro rows h j hj hj'
    simp only [flushRow] at h
    split at h
    · next hnull =>
      cases hrec : flushRow cs r with
      | error e => rw [hrec] at h; cases h
      | ok rest =>
        rw [hrec] at h
        cases h
        cases j with
        | zero => exact Or.inl ⟨by simpa using hnull, rfl⟩
        | succ j =>
          exact ih rest hrec j (Nat.lt_of_succ_lt_succ hj) (Nat.lt_of_succ_lt_succ hj')
    · next hnull =>
      cases hser : (c.data.type.serialize (recordGet r c.name)) with
      | error e => rw [hser] at h; cases h
      | ok p =>
        rw [hser] at h
        cases hrec : flushRow cs r with
        | error e => rw [hrec] at h; cases h
        | ok rest =>
          rw [hrec] at h
          cases h
          cases j with
          | zero => exact Or.inr ⟨p, by simpa using hnull, hser, rfl⟩
          | succ j =>
            exact ih rest hrec j (Nat.lt_of_succ_lt_succ hj) (Nat.lt_of_succ_lt_succ hj')

theorem flush_length (cs : List Column) (recs : List RecordV) :
    ∀ rowss, flush cs recs = .ok rowss → rowss.length = recs.length := by
  induction recs with
  | nil =>
    intro rowss h
    simp only [flush] at h
    cases h
    rfl
  | cons r rs ih =>
    intro rowss h
    simp only [flush] at h
    cases hrow : flushRow cs r with
    | error e => rw [hrow] at h; cases h
    | ok row =>
      rw [hrow] at h
      cases hrest : flush cs rs with
      | error e => rw [hrest] at h; cases h
      | ok rest =>
        rw [hrest] at h
        cases h
        simp [ih rest hrest]

theorem flush_rows (cs : List Column) (recs : List RecordV) :
    ∀ rowss, flush cs recs = .ok rowss →
      ∀ i (hi : i < recs.length) (hi' : i < rowss.length),
        flushRow cs (recs.get ⟨i, hi⟩) = .ok (rowss.get ⟨i, hi'⟩) := by
  induction recs with
  | nil =>
    intro rowss _ i hi
    exact absurd hi (by simp)
  | cons r rs ih =>
    intro rowss h i hi hi'
    simp only [flush] at h
    cases hrow : flushRow cs r with
    | error e => rw [hrow] at h; cases h
    | ok row =>
      rw [hrow] at h
      cases hrest : flush cs rs with
      | error e => rw [hrest] at h; cases h
      | ok rest =>
        rw [hrest] at h
        cases h
        cases i with
        | zero => exact hrow
        | succ i =>
          exact ih rest hrest i (Nat.lt_of_succ_lt_succ hi) (Nat.lt_of_succ_lt_succ hi')

theorem tableRequests_length (ents : List (TableDef × List RecordV × ℕ)) :
    ∀ reqs, tableRequests ents = .ok reqs → reqs.length = ents.length := by
  induction ents with
  | nil =>
    intro reqs h
    simp only [tableRequests] at h
    cases h
    rfl
  | cons ent ents ih =>
    intro reqs h
    obtain ⟨t, buf, idx⟩ := ent
    simp only [tableRequests] at h
    cases hfl : flush t.columns buf with
    | error e => rw [hfl] at h; cases h
    | ok vals =>
      rw [hfl] at h
      cases htail : tableRequests ents with
      | error e => rw [htail] at h; cases h
      | ok tail =>
        rw [htail] at h
        cases h
        simp [ih tail htail]

theorem tableRequests_get (ents : List (TableDef × List RecordV × ℕ)) :
    ∀ reqs, tableRequests ents = .ok reqs →
      ∀ i (hi : i < ents.length) (hi' : i < reqs.length),
        (reqs.get ⟨i, hi'⟩).range =
          tableWriteRange (ents.get ⟨i, hi⟩).1.name (ents.get ⟨i, hi⟩).2.2
            (ents.get ⟨i, hi⟩).1.columns.length ∧
        flush (ents.get ⟨i, hi⟩).1.columns (ents.get ⟨i, hi⟩).2.1 =
          .ok (reqs.get ⟨i, hi'⟩).values := by
  induction ents with
  | nil =>
    intro reqs _ i hi
    exact absurd hi (by simp)
  | cons ent ents ih =>
    intro reqs h i hi hi'
    obtain ⟨t, buf, idx⟩ := ent
    simp only [tableRequests] at h
    cases hfl : flush t.columns buf with
    | error e => rw [hfl] at h; cases h
    | ok vals =>
      rw [hfl] at h
      cases htail : tableRequests ents with
      | error e => rw [htail] at h; cases h
      | ok tail =>
        rw [htail] at h
        cases h
        cases i with
        | zero => exact ⟨rfl, hfl⟩
        | succ i =>
          exact ih tail htail i (Nat.lt_of_succ_lt_succ hi) (Nat.lt_of_succ_lt_succ hi')

/-! ### Helper lemmas about `transactRun`, `migrateRun` and `connectRun` -/

theorem transactRun_storeOpen (last toHeight : ℤ) (cbE : Option String)
    (res : Except String (List (TableDef × List RecordV × ℕ))) (wrE : Option String) :
    (transactRun last toHeight cbE res wrE).storeOpen = false := by
  cases cbE with
  | some e => rfl
  | none =>
    cases res with
    | error e => rfl
    | ok ents =>
      cases hb : transactBatchData ents toHeight with
      | error e => simp [transactRun, hb]
      | ok reqs =>
        cases wrE with
        | some e => simp [transactRun, hb]
        | none => simp [transactRun, hb]

theorem migrateRun_statusCell (sid : String) (sheetIdOf : String → ℕ)
    (tables : List TableDef) (st : RemoteState) :
    (migrateRun sid sheetIdOf tables st).1.statusCell = st.statusCell := by
  simp only [migrateRun]
  split <;> rfl

theorem migrateRun_hasSheet (sid : String) (sheetIdOf : String → ℕ)
    (tables : List TableDef) (st : RemoteState) (title : String)
    (h : hasSheet st title = true) :
    hasSheet (migrateRun sid sheetIdOf tables st).1 title = true := by
  simp only [migrateRun]
  split
  · exact h
  · simp only [hasSheet, List.any_append] at h ⊢
    simp [h]

theorem sum_structStatusAdds_flatten (sheetIdOf : String → ℕ) (ts : List TableDef)
    (h : ∀ t ∈ ts, t.name ≠ "squid_status") :
    (((ts.map (migrateRequestsFor sheetIdOf)).flatten).map structStatusAdds).sum = 0 := by
  induction ts with
  | nil => rfl
  | cons t ts ih =>
    have ht : t.name ≠ "squid_status" := h t (List.mem_cons_self t ts)
    have hrest := ih (fun u hu => h u (List.mem_cons_of_mem t hu))
    simp only [List.map_cons, List.flatten_cons, List.map_append, List.sum_append, hrest,
      Nat.add_zero, migrateRequestsFor, List.map_nil, structStatusAdds, List.sum_cons,
      List.sum_nil, if_neg ht]

theorem migrateRun_no_status_add (sid : String) (sheetIdOf : String → ℕ)
    (tables : List TableDef) (st : RemoteState)
    (h : hasSheet st "squid_status" = true) :
    countStatusAdds (migrateRun sid sheetIdOf tables st).2 = 0 := by
  simp only [migrateRun]
  split
  · rfl
  · have hnames : ∀ t ∈ tables.filter
        (fun t => !(st.sheets.any (fun s => s.title == t.name))), t.name ≠ "squid_status" := by
      intro t ht heq
      have hmem := List.of_mem_filter ht
      rw [heq] at hmem
      simp only [hasSheet] at h
      rw [h] at hmem
      cases hmem
    simp only [countStatusAdds, List.map_cons, List.map_nil, callStatusAdds, List.sum_cons,
      List.sum_nil, Nat.zero_add, Nat.add_zero]
    exact sum_structStatusAdds_flatten sheetIdOf _ hnames

/-! ### The concrete schema of the spec's worked example -/

/-- The `{id: Numeric (non-null), name: String (nullable)}` schema of the
spec's concrete scenario, in declaration order. -/
def exampleColumns : List Column :=
  [⟨"id", ⟨.numericT, false⟩⟩, ⟨"name", ⟨.stringT, true⟩⟩]

/-- The two inserted records of the scenario: `{id: 1, name: null}` and
`{id: 2}`. -/
def exampleRecords : List RecordV :=
  [[("id", .num 1), ("name", .nullV)], [("id", .num 2)]]

/-- A declared table over the example schema. -/
def transfersTable : TableDef :=
  ⟨"transfers", exampleColumns⟩

/-! ### The claims -/

/-- C1: the row-reservation step of `transact` does issue one append-one-
blank-row request per declared table against that table's sheet, but the
request targets the spreadsheet id hard-coded in `getNextRowIndex`, not the
`spreadsheetId` the `Database` was constructed with: for a database
configured with `"example-spreadsheet-id"`, the append goes to the
hard-coded container. -/
theorem c1_reserve_append_ignores_configured_spreadsheet :
    transactReserveCalls "example-spreadsheet-id" [transfersTable] =
      [.valuesAppend hardcodedAppendSpreadsheetId "\x27transfers\x27" [[some (.str "")]]] ∧
    hardcodedAppendSpreadsheetId ≠ "example-spreadsheet-id" := by
  exact ⟨rfl, by decide⟩

/-- C2 counterexample: the `id` column is declared non-nullable, yet
flushing one record that omits `id` entirely does not reject with an error
— it succeeds and silently yields a null cell. -/
theorem c2_counterexample_missing_non_nullable_not_rejected :
    (exampleColumns.get ⟨0, by decide⟩).data.nullable = false ∧
    flush exampleColumns [[]] = .ok [[none, none]] := by
  exact ⟨rfl, rfl⟩

/-- C2 (amended): `flush` performs no nullability check at all — for every
column, nullable or not, a null or absent record value yields `null` in the
flushed row, and a record with only nullish values always flushes without
error.  Non-nullable enforcement is static (TypeScript types), not a
runtime rejection. -/
theorem c2_flush_nullish_always_null_never_rejected (cs : List Column) (r : RecordV)
    (rows : Row) (h : flushRow cs r = .ok rows)
    (j : ℕ) (hj : j < cs.length) (hj' : j < rows.length)
    (hnull : isNullish (recordGet r (cs.get ⟨j, hj⟩).name) = true) :
    rows.get ⟨j, hj'⟩ = none ∧
    flushRow cs [] = .ok (List.replicate cs.length none) := by
  constructor
  · rcases flushRow_cell cs r rows h j hj hj' with ⟨_, hc⟩ | ⟨p, hf, _, _⟩
    · exact hc
    · rw [hnull] at hf
      cases hf
  · clear h hnull hj' rows j hj
    induction cs with
    | nil => rfl
    | cons c cs ih => simp [flushRow, recordGet, isNullish, ih, List.replicate_succ]

/-- C2 witness: the amended theorem applied to the example schema, record
`{id: 1, name: null}` and the nullable `name` column. -/
theorem c2_flush_nullish_witness :
    ([some (Primitive.num 1), none] : Row).get ⟨1, by decide⟩ = none ∧
    flushRow exampleColumns [] = .ok (List.replicate exampleColumns.length none) :=
  c2_flush_nullish_always_null_never_rejected exampleColumns
    [("id", .num 1), ("name", .nullV)] [some (.num 1), none] rfl 1
    (by decide) (by decide) (by decide)

/-- C3 counterexample: `DateTime().serialize` applied to a plain number —
a value of the wrong runtime shape — does not fail: it silently coerces it
through `valueOf()` and returns a numeric primitive. -/
theorem c3_counterexample_datetime_silently_coerces :
    dateTimeSerialize (.num 0) = .ok (.num 25569) := by
  show Except.ok (Primitive.num ((0 : ℚ) / 86400000 + 25569)) = .ok (.num 25569)
  norm_num

/-- C3 (amended): `String`, `Numeric` and `Boolean` serialize do fail
loudly, each with its own distinct error, on every value of the wrong
runtime shape; `DateTime` alone performs no shape check and silently
coerces a plain number into a numeric primitive. -/
theorem c3_shape_errors_except_datetime (v : JSValue) :
    ((∀ s, v ≠ .str s) →
      stringSerialize v = .error "assert failed: typeof value === 'string'") ∧
    ((∀ n, v ≠ .num n) → (∀ i, v ≠ .bigint i) →
      numericSerialize v = .error "Error") ∧
    ((∀ b, v ≠ .boolean b) → booleanSerialize v = .error "Invalid boolean") ∧
    (∀ n : ℚ, dateTimeSerialize (.num n) = .ok (.num (n / 86400000 + 25569))) := by
  refine ⟨?_, ?_, ?_, fun n => rfl⟩
  · intro hs
    cases v with
    | str s => exact absurd rfl (hs s)
    | _ => rfl
  · intro hn hi
    cases v with
    | num n => exact absurd rfl (hn n)
    | bigint i => exact absurd rfl (hi i)
    | _ => rfl
  · intro hb
    cases v with
    | boolean b => exact absurd rfl (hb b)
    | _ => rfl

/-- C3 witness: the amended theorem applied to `null`, a wrong shape for
all three checking types. -/
theorem c3_shape_errors_witness :
    stringSerialize .nullV = .error "assert failed: typeof value === 'string'" ∧
    numericSerialize .nullV = .error "Error" ∧
    booleanSerialize .nullV = .error "Invalid boolean" :=
  ⟨(c3_shape_errors_except_datetime .nullV).1 (fun s h => by cases h),
   (c3_shape_errors_except_datetime .nullV).2.1 (fun n h => by cases h) (fun i h => by cases h),
   (c3_shape_errors_except_datetime .nullV).2.2.1 (fun b h => by cases h)⟩

/-- C4: when the commit payload builds successfully, it has exactly one
entry per declared table plus one checkpoint entry; the table entry `i`
targets the range starting at that table's reserved row over its declared
columns and carries exactly one value row per buffered record; the last
entry writes `to` to the checkpoint cell; and the commit step issues it as
a single batched call. -/
theorem c4_commit_payload_shape (ents : List (TableDef × List RecordV × ℕ)) (toHeight : ℤ)
    (sid : String) (reqs : List ValueRange)
    (h : transactBatchData ents toHeight = .ok reqs) :
    reqs.length = ents.length + 1 ∧
    (∀ i (hi : i < ents.length) (hi' : i < reqs.length),
      (reqs.get ⟨i, hi'⟩).range =
        tableWriteRange (ents.get ⟨i, hi⟩).1.name (ents.get ⟨i, hi⟩).2.2
          (ents.get ⟨i, hi⟩).1.columns.length ∧
      (reqs.get ⟨i, hi'⟩).values.length = (ents.get ⟨i, hi⟩).2.1.length) ∧
    reqs.getLast? = some (checkpointValueRange toHeight) ∧
    (transactWriteCalls sid reqs).length = 1 := by
  simp only [transactBatchData] at h
  cases htr : tableRequests ents with
  | error e => rw [htr] at h; cases h
  | ok treqs =>
    rw [htr] at h
    cases h
    have hlen := tableRequests_length ents treqs htr
    refine ⟨by simp [hlen], ?_, List.getLast?_concat _, rfl⟩
    intro i hi hi'
    have hi'' : i < treqs.length := by rw [hlen]; exact hi
    have hget : (treqs ++ [checkpointValueRange toHeight]).get ⟨i, hi'⟩ =
        treqs.get ⟨i, hi''⟩ := by
      rw [List.get_eq_getElem, List.get_eq_getElem, List.getElem_append_left]
    obtain ⟨hr, hv⟩ := tableRequests_get ents treqs htr i hi hi''
    rw [hget, hr]
    exact ⟨rfl, flush_length _ _ _ hv⟩

/-- The commit payload of the spec's worked example: two value rows into
the reserved range of `transfers`, then the checkpoint write. -/
def c4ExampleReqs : List ValueRange :=
  [⟨"\x27transfers\x27!R6C1:C2", [[some (.num 1), none], [some (.num 2), none]]⟩,
   checkpointValueRange 42]

/-- C4 witness: the payload theorem applied to the worked example with
reserved row index 5 and `to = 42`. -/
theorem c4_commit_payload_witness :
    transactBatchData [(transfersTable, exampleRecords, 5)] 42 = .ok c4ExampleReqs ∧
    c4ExampleReqs.length = 1 + 1 ∧
    c4ExampleReqs.getLast? = some (checkpointValueRange 42) := by
  have h : transactBatchData [(transfersTable, exampleRecords, 5)] 42 = .ok c4ExampleReqs := rfl
  obtain ⟨h1, _, h3, _⟩ :=
    c4_commit_payload_shape [(transfersTable, exampleRecords, 5)] 42 "example" c4ExampleReqs h
  exact ⟨h, by simpa using h1, h3⟩

/-- C5: whatever the outcome of the callback, the row reservation, the
flush during payload building, or the batched write, `transact` closes the
store; a failure at any of these steps rethrows that same error and leaves
the in-memory `lastCommitted` unchanged, while full success sets it to
`to`. -/
theorem c5_transact_failure_leaves_checkpoint (last toHeight : ℤ) (cbE : Option String)
    (res : Except String (List (TableDef × List RecordV × ℕ))) (wrE : Option String) :
    (transactRun last toHeight cbE res wrE).storeOpen = false ∧
    ((transactRun last toHeight cbE res wrE).thrown.isSome = true →
      (transactRun last toHeight cbE res wrE).lastCommitted = last) ∧
    ((transactRun last toHeight cbE res wrE).thrown = none →
      (transactRun last toHeight cbE res wrE).lastCommitted = toHeight) ∧
    (∀ e, cbE = some e → (transactRun last toHeight cbE res wrE).thrown = some e) ∧
    (∀ e, cbE = none → res = .error e →
      (transactRun last toHeight cbE res wrE).thrown = some e) ∧
    (∀ e ents, cbE = none → res = .ok ents → transactBatchData ents toHeight = .error e →
      (transactRun last toHeight cbE res wrE).thrown = some e) ∧
    (∀ e ents reqs, cbE = none → res = .ok ents → transactBatchData ents toHeight = .ok reqs →
      wrE = some e → (transactRun last toHeight cbE res wrE).thrown = some e) ∧
    (∀ ents reqs, cbE = none → res = .ok ents → transactBatchData ents toHeight = .ok reqs →
      wrE = none → (transactRun last toHeight cbE res wrE).thrown = none ∧
        (transactRun last toHeight cbE res wrE).lastCommitted = toHeight) := by
  cases cbE with
  | some e => simp [transactRun]
  | none =>
    cases res with
    | error e => simp [transactRun]
    | ok ents =>
      cases hb : transactBatchData ents toHeight with
      | error e =>
        have hrun : transactRun last toHeight none (.ok ents) wrE = ⟨some e, last, false⟩ := by
          simp [transactRun, hb]
        rw [hrun]
        refine ⟨rfl, fun _ => rfl, ?_, ?_, ?_, ?_, ?_, ?_⟩
        · intro hc
          simp at hc
        · intro e1 hc
          simp at hc
        · intro e1 _ hc
          simp at hc
        · intro e1 ents1 _ hok hbd
          injection hok with h'
          subst h'
          rw [hb] at hbd
          injection hbd with h''
          subst h''
          rfl
        · intro e1 ents1 reqs _ hok hbd hw
          injection hok with h'
          subst h'
          rw [hb] at hbd
          cases hbd
        · intro ents1 reqs _ hok hbd hw
          injection hok with h'
          subst h'
          rw [hb] at hbd
          cases hbd
      | ok reqs =>
        cases wrE with
        | some e => simp [transactRun, hb]
        | none => simp [transactRun, hb]

/-- C5 witness: a callback failure at concrete heights keeps the old
checkpoint 7 and closes the store; the all-success run commits 9. -/
theorem c5_transact_failure_witness :
    (transactRun 7 9 (some "boom") (.ok []) none).storeOpen = false ∧
    (transactRun 7 9 (some "boom") (.ok []) none).lastCommitted = 7 ∧
    (transactRun 7 9 none (.ok []) none).lastCommitted = 9 :=
  ⟨(c5_transact_failure_leaves_checkpoint 7 9 (some "boom") (.ok []) none).1,
   (c5_transact_failure_leaves_checkpoint 7 9 (some "boom") (.ok []) none).2.1 rfl,
   (c5_transact_failure_leaves_checkpoint 7 9 none (.ok []) none).2.2.1 rfl⟩

/-- C6: after a `transact` call has settled — with any combination of step
outcomes, success or failure — the store's `open` flag is down, so a table
access through the store fails with the "Transaction was already closed"
error, returns no writer, and issues zero backing-service calls. -/
theorem c6_store_access_after_settle_closed (last toHeight : ℤ) (cbE : Option String)
    (res : Except String (List (TableDef × List RecordV × ℕ))) (wrE : Option String)
    (chunk : ChunkState) (a : String) (r : RecordV) :
    storeInsertRun (transactRun last toHeight cbE res wrE).storeOpen chunk a r =
      (.error "Transaction was already closed", []) := by
  rw [transactRun_storeOpen]
  rfl

/-- C7: a successful `flush` yields exactly one row per inserted record in
insertion order; each row has one cell per column in the table's declared
column order, the cell being `null` for a null or absent record value and
the column type's serialization of the value otherwise. -/
theorem c7_flush_rows_in_order (cs : List Column) (recs : List RecordV)
    (rowss : List Row) (h : flush cs recs = .ok rowss) :
    rowss.length = recs.length ∧
    ∀ i (hi : i < recs.length) (hi' : i < rowss.length),
      (rowss.get ⟨i, hi'⟩).length = cs.length ∧
      ∀ j (hj : j < cs.length) (hj' : j < (rowss.get ⟨i, hi'⟩).length),
        (isNullish (recordGet (recs.get ⟨i, hi⟩) (cs.get ⟨j, hj⟩).name) = true ∧
          (rowss.get ⟨i, hi'⟩).get ⟨j, hj'⟩ = none) ∨
        (∃ p, isNullish (recordGet (recs.get ⟨i, hi⟩) (cs.get ⟨j, hj⟩).name) = false ∧
          (cs.get ⟨j, hj⟩).data.type.serialize
            (recordGet (recs.get ⟨i, hi⟩) (cs.get ⟨j, hj⟩).name) = .ok p ∧
          (rowss.get ⟨i, hi'⟩).get ⟨j, hj'⟩ = some p) := by
  refine ⟨flush_length cs recs rowss h, ?_⟩
  intro i hi hi'
  have hrow := flush_rows cs recs rowss h i hi hi'
  exact ⟨flushRow_length cs _ _ hrow, flushRow_cell cs _ _ hrow⟩

/-- C7 witness: the worked example — `{id: 1, name: null}` and `{id: 2}`
into the `{id: Numeric non-null, name: String nullable}` table flush to
`[[1, null], [2, null]]`, two rows for two records. -/
theorem c7_flush_rows_witness :
    flush exampleColumns exampleRecords =
      .ok [[some (.num 1), none], [some (.num 2), none]] ∧
    ([[some (Primitive.num 1), none], [some (Primitive.num 2), none]] : List Row).length =
      exampleRecords.length := by
  have h : flush exampleColumns exampleRecords =
      .ok [[some (.num 1), none], [some (.num 2), none]] := rfl
  exact ⟨h, (c7_flush_rows_in_order exampleColumns exampleRecords _ h).1⟩

/-- C8: `advance(height)` with `height` equal to the in-memory checkpoint
issues zero backing-service calls; otherwise it issues exactly one call,
the write of `height` to the single checkpoint cell, touching no other
range. -/
theorem c8_advance_noop_or_checkpoint_only (sid : String) (last height : ℤ) :
    (height = last → advanceRun sid last height = (last, [])) ∧
    (height ≠ last → advanceRun sid last height =
      (last, [.valuesUpdate sid "squid_status!R1C1" [[some (.num (height : ℚ))]]])) := by
  constructor
  · intro he
    simp [advanceRun, he]
  · intro hne
    unfold advanceRun
    rw [if_neg (fun hc => hne hc.symm)]

/-- C8 witness: `advance(5)` at checkpoint 5 is silent; `advance(7)` at
checkpoint 5 issues the single checkpoint write. -/
theorem c8_advance_witness :
    advanceRun "example" 5 5 = (5, []) ∧
    advanceRun "example" 5 7 =
      (5, [.valuesUpdate "example" "squid_status!R1C1" [[some (.num ((7 : ℤ) : ℚ))]]]) :=
  ⟨(c8_advance_noop_or_checkpoint_only "example" 5 5).1 rfl,
   (c8_advance_noop_or_checkpoint_only "example" 5 7).2 (by decide)⟩

/-- C9: `connect()` on a container without the checkpoint sheet creates
the 1×1 `squid_status` sheet exactly once and returns the sentinel -1; a
second `connect()` on the resulting state creates no further checkpoint
sheet and, the cell being empty, still returns -1. -/
theorem c9_connect_idempotent_checkpoint_creation (sid : String) (sheetIdOf : String → ℕ)
    (tables : List TableDef) (st0 : RemoteState)
    (h : hasSheet st0 "squid_status" = false) :
    (connectRun sid sheetIdOf tables st0).checkpoint = -1 ∧
    countStatusAdds (connectRun sid sheetIdOf tables st0).calls = 1 ∧
    (connectRun sid sheetIdOf tables (connectRun sid sheetIdOf tables st0).state).checkpoint
      = -1 ∧
    countStatusAdds
      (connectRun sid sheetIdOf tables (connectRun sid sheetIdOf tables st0).state).calls
      = 0 := by
  have hfirst : connectRun sid sheetIdOf tables st0 =
      ⟨(migrateRun sid sheetIdOf tables (withStatusSheet st0)).1, -1,
        [.getSpreadsheet sid, .structuralBatchUpdate sid [.addSheet none "squid_status" 1 1]]
          ++ (migrateRun sid sheetIdOf tables (withStatusSheet st0)).2⟩ := by
    unfold connectRun
    rw [if_neg (by rw [h]; exact Bool.false_ne_true)]
  have hst1has : hasSheet (withStatusSheet st0) "squid_status" = true := by
    simp [hasSheet, withStatusSheet, List.any_append]
  have hstatehas : hasSheet (connectRun sid sheetIdOf tables st0).state "squid_status"
      = true := by
    rw [hfirst]
    exact migrateRun_hasSheet sid sheetIdOf tables _ _ hst1has
  have hstatecell : (connectRun sid sheetIdOf tables st0).state.statusCell = none := by
    rw [hfirst]
    exact migrateRun_statusCell sid sheetIdOf tables _
  have hread : ∀ st : RemoteState, hasSheet st "squid_status" = true → st.statusCell = none →
      connectRun sid sheetIdOf tables st =
        ⟨(migrateRun sid sheetIdOf tables st).1, -1,
         [.getSpreadsheet sid, .valuesGet sid "squid_status!R1C1"]
           ++ (migrateRun sid sheetIdOf tables st).2⟩ := by
    intro st hhas hcell
    unfold connectRun
    rw [if_pos hhas, hcell]
  have hsecond := hread (connectRun sid sheetIdOf tables st0).state hstatehas hstatecell
  refine ⟨by rw [hfirst], ?_, by rw [hsecond], ?_⟩
  · rw [hfirst]
    simp only [countStatusAdds, List.map_append, List.sum_append, List.map_cons, List.map_nil,
      List.sum_cons, List.sum_nil, callStatusAdds, structStatusAdds, if_pos rfl]
    have := migrateRun_no_status_add sid sheetIdOf tables _ hst1has
    simp only [countStatusAdds] at this
    simp [this]
  · rw [hsecond]
    simp only [countStatusAdds, List.map_append, List.sum_append, List.map_cons, List.map_nil,
      List.sum_cons, List.sum_nil, callStatusAdds]
    have := migrateRun_no_status_add sid sheetIdOf tables
      (connectRun sid sheetIdOf tables st0).state hstatehas
    simp only [countStatusAdds] at this
    simp [this]

/-- C9 witness: connecting twice to an empty container with one declared
table. -/
theorem c9_connect_idempotent_witness :
    (connectRun "example" (fun _ => 0) [transfersTable] ⟨[], none⟩).checkpoint = -1 ∧
    countStatusAdds (connectRun "example" (fun _ => 0) [transfersTable] ⟨[], none⟩).calls = 1 ∧
    (connectRun "example" (fun _ => 0) [transfersTable]
      (connectRun "example" (fun _ => 0) [transfersTable] ⟨[], none⟩).state).checkpoint = -1 ∧
    countStatusAdds (connectRun "example" (fun _ => 0) [transfersTable]
      (connectRun "example" (fun _ => 0) [transfersTable] ⟨[], none⟩).state).calls = 0 :=
  c9_connect_idempotent_checkpoint_creation "example" (fun _ => 0) [transfersTable]
    ⟨[], none⟩ rfl

/-- C10: `advance` never assigns the in-memory `lastCommitted`, so after a
successful `advance(height)` with `height` different from the checkpoint, a
repeated `advance(height)` still finds them different and issues the
checkpoint write again; `close()` resets the field to -1 and a successful
`transact` sets it to `to`. -/
theorem c10_advance_frame_on_lastCommitted (sid : String) (last height : ℤ) :
    (advanceRun sid last height).1 = last ∧
    (height ≠ last →
      (advanceRun sid (advanceRun sid last height).1 height).2 =
        [.valuesUpdate sid "squid_status!R1C1" [[some (.num (height : ℚ))]]]) ∧
    closeRun last = -1 ∧
    (transactRun last height none (.ok []) none).lastCommitted = height := by
  refine ⟨?_, ?_, rfl, rfl⟩
  · unfold advanceRun
    split <;> rfl
  · intro hne
    have h1 : (advanceRun sid last height).1 = last := by
      unfold advanceRun
      split <;> rfl
    rw [h1]
    unfold advanceRun
    rw [if_neg (fun hc => hne hc.symm)]

/-- C10 witness: at checkpoint 0, `advance(3)` leaves `lastCommitted` at 0
and a second `advance(3)` issues the write again. -/
theorem c10_advance_frame_witness :
    (advanceRun "example" 0 3).1 = 0 ∧
    (advanceRun "example" (advanceRun "example" 0 3).1 3).2 =
      [.valuesUpdate "example" "squid_status!R1C1" [[some (.num ((3 : ℤ) : ℚ))]]] :=
  ⟨(c10_advance_frame_on_lastCommitted "example" 0 3).1,
   (c10_advance_frame_on_lastCommitted "example" 0 3).2.1 (by decide)⟩

end GSheetsStore
